import Mathlib

set_option autoImplicit false

/-!
Verification of the Kaichi agent subsystem (src/kaichi) against its
natural-language specification.  Each Python component relevant to the
frozen claims is shallowly embedded as executable Lean definitions:
pure methods become functions, stateful methods become explicit
state-passing functions, external effects (LLM calls, the vector
dataset, the sandboxed subprocess) become oracle arguments, and Python
exceptions become `Except`/`Option` results.  Definitions come first,
theorems follow at the end of the file.
-/

/- ## Sandbox runner: `ProjectEnv` (src/kaichi/env/bridge.py) -/

/-- Execution state returned by the sandbox: `{output, error, return_code}`. -/
structure ExecState where
  output : String
  error : String
  return_code : Int
deriving DecidableEq, Repr

/-- Outcome of the spawned child process (`subprocess.run` with a timeout):
either it finished with captured streams and a return code, or the wall-clock
timeout expired (`subprocess.TimeoutExpired`). -/
inductive RunResult where
  | completed (stdout : String) (stderr : String) (returncode : Int)
  | timedOut
deriving DecidableEq, Repr

/-- The sandbox environment state (`ProjectEnv.__init__` / `reset`). -/
structure ProjectEnv where
  timeout : Nat
  has_reset : Bool
  execution_log : List (String × ExecState)
deriving DecidableEq, Repr

/-- `ProjectEnv.step(code)` from src/kaichi/env/bridge.py.  The child-process
outcome is the oracle `run`.  `Except.error` models a Python exception
escaping the method; `.ok` carries the updated environment, the execution
state and the reward (`1.0` / `-1.0`, represented exactly as integers). -/
def ProjectEnv.step (env : ProjectEnv) (code : String) (run : RunResult) :
    Except String (ProjectEnv × ExecState × Int) :=
  if env.has_reset = false then
    Except.error "Environment has not been reset yet."
  else
    match run with
    | RunResult.completed out err rc =>
        let st : ExecState := { output := out, error := err, return_code := rc }
        let env' := { env with execution_log := env.execution_log ++ [(code, st)] }
        let reward : Int := if rc = 0 then 1 else -1
        Except.ok (env', st, reward)
    | RunResult.timedOut =>
        let msg := "Code execution exceeded timeout of " ++ toString env.timeout ++ " seconds."
        let st : ExecState := { output := "", error := msg, return_code := -1 }
        let env' := { env with execution_log := env.execution_log ++ [(code, st)] }
        Except.ok (env', st, -1)

/- ## Task progress (src/kaichi/agents/task.py and the identical list logic
of the `TaskProgress` class in src/kaichi/agents/curriculum.py) -/

/-- `TaskProgress` state.  `last_updated` maps a task to a timestamp; the
counters come from src/kaichi/agents/task.py (the curriculum's copy of the
class has the identical `completed_tasks`/`failed_tasks` logic and simply
omits the counters). -/
structure TaskProgress where
  completed_tasks : List String
  failed_tasks : List String
  last_updated : List (String × Nat)
  success_count : Nat
  failure_count : Nat
deriving DecidableEq, Repr

/-- Fresh progress record (`TaskProgress.__init__`). -/
def initTaskProgress : TaskProgress :=
  { completed_tasks := [], failed_tasks := [], last_updated := []
    success_count := 0, failure_count := 0 }

/-- Python `dict[k] = v` on an association list: replace in place if present,
else append. -/
def dictSet (l : List (String × Nat)) (k : String) (v : Nat) : List (String × Nat) :=
  if l.any (fun p => p.1 = k) then
    l.map (fun p => if p.1 = k then (k, v) else p)
  else
    l ++ [(k, v)]

/-- `TaskProgress.add_completed_task` (append when not yet completed, then
remove the task from the failed list; `time.time()` supplied as `now`). -/
def TaskProgress.add_completed_task (p : TaskProgress) (task : String) (now : Nat) :
    TaskProgress :=
  let p1 :=
    if task ∈ p.completed_tasks then p
    else { p with completed_tasks := p.completed_tasks ++ [task]
                  last_updated := dictSet p.last_updated task now
                  success_count := p.success_count + 1 }
  if task ∈ p1.failed_tasks then
    { p1 with failed_tasks := p1.failed_tasks.erase task }
  else p1

/-- `TaskProgress.add_failed_task`: appends only when the task is in neither
list. -/
def TaskProgress.add_failed_task (p : TaskProgress) (task : String) (now : Nat) :
    TaskProgress :=
  if task ∉ p.failed_tasks ∧ task ∉ p.completed_tasks then
    { p with failed_tasks := p.failed_tasks ++ [task]
             last_updated := dictSet p.last_updated task now
             failure_count := p.failure_count + 1 }
  else p

/-- One `CurriculumAgent.update_exploration_progress` call, as the triple
(task, success flag, timestamp).  `_save_state` only persists and is
irrelevant to the in-memory record. -/
def update_exploration_progress (p : TaskProgress) (u : String × Bool × Nat) :
    TaskProgress :=
  if u.2.1 then p.add_completed_task u.1 u.2.2
  else p.add_failed_task u.1 u.2.2

/-- A sequence of `update_exploration_progress` calls. -/
def runUpdates (p : TaskProgress) (us : List (String × Bool × Nat)) : TaskProgress :=
  us.foldl update_exploration_progress p

/-- Invariant carried through progress updates: the failed list has no
duplicates and no completed task is also failed. -/
def ProgressInv (p : TaskProgress) : Prop :=
  p.failed_tasks.Nodup ∧ ∀ t ∈ p.completed_tasks, t ∉ p.failed_tasks

/- ## Skill manager (src/kaichi/agents/skill.py)

The vector dataset is an external service reached through
src/kaichi/vectordb/dify_datasets.py.  Modelled from the spec: the dataset
is "a dataset/document CRUD contract" with
`create_document_by_text(dataset_id, name, text)` appending a document and
`delete_document(dataset_id, name)` removing the documents with that name
(the dataset server itself is not part of this repository). -/

/-- A stored skill: `{code, description}` (value of `skills.json`). -/
structure Skill where
  code : String
  description : String
deriving DecidableEq, Repr

/-- Lookup in an association list, mirroring Python `dict` lookup. -/
def alookup (l : List (String × Skill)) (k : String) : Option Skill :=
  match l with
  | [] => none
  | p :: rest => if p.1 = k then some p.2 else alookup rest k

/-- Python `dict[k] = v`: replace in place if present, else append. -/
def skillsSet (l : List (String × Skill)) (k : String) (v : Skill) :
    List (String × Skill) :=
  if (alookup l k).isSome then
    l.map (fun p => if p.1 = k then (k, v) else p)
  else
    l ++ [(k, v)]

/-- Writing a file: the directory listing gains the filename if absent
(overwriting an existing file leaves the listing unchanged). -/
def fsWrite (files : List String) (name : String) : List String :=
  if name ∈ files then files else files ++ [name]

/-- The state `SkillManager.add_new_skill` manipulates: the persisted
`skills.json` (authoritative, reloaded at the start of every add), whether
that file exists yet, the external dataset's documents as (name, text)
pairs, and the filenames present in `skill/code` and `skill/description`. -/
structure SkillState where
  skills_json : List (String × Skill)
  skills_file_exists : Bool
  docs : List (String × String)
  code_files : List String
  desc_files : List String
deriving DecidableEq, Repr

/-- Fresh checkpoint directory: no skills file, empty dataset, no files. -/
def initSkillState : SkillState :=
  { skills_json := [], skills_file_exists := false, docs := []
    code_files := [], desc_files := [] }

/-- Per-call oracle: the result of `generate_skill_description` (an LLM
round-trip that may raise), and whether `create_document_by_text` returned
an error field. -/
structure AddOracle where
  desc : Except String String
  create_ok : Bool
deriving Repr

/-- Modelled from the spec: `delete_document(dataset_id, name)` removes the
documents with the given name from the external dataset. -/
def deleteDoc (docs : List (String × String)) (name : String) :
    List (String × String) :=
  docs.filter (fun d => decide (d.1 ≠ name))

/-- The version scan of `add_new_skill`: `i = 2; while name + "V" + i +
".py" in listdir: i += 1`.  Fuel-based rendering of the Python while loop;
`files.length + 1` candidates suffice because each failed candidate names a
distinct file in `files`. -/
def versionScan (name : String) (files : List String) : Nat → Nat → Nat
  | 0, i => i
  | fuel + 1, i =>
      if (name ++ "V" ++ toString i ++ ".py") ∈ files then
        versionScan name files fuel (i + 1)
      else i

/-- Smallest `k ≥ 2` with `nameVk.py` not in the code directory. -/
def versionIndex (name : String) (files : List String) : Nat :=
  versionScan name files (files.length + 1) 2

/-- Tail of `add_new_skill` after the versioning decision: insert the
document, update the dictionary, run the self-consistency assertion, then
write the two files and persist `skills.json`.  The second component is
`true` iff the call returns normally (no exception). -/
def addFinish (st : SkillState) (name code desc dumped : String)
    (createOk : Bool) : SkillState × Bool :=
  if createOk = false then (st, false)
  else if (st.docs ++ [(name, desc)]).length
      = (skillsSet st.skills_json name { code := code, description := desc }).length then
    ({ st with
        skills_json := skillsSet st.skills_json name { code := code, description := desc }
        docs := st.docs ++ [(name, desc)]
        code_files := fsWrite st.code_files (dumped ++ ".py")
        desc_files := fsWrite st.desc_files (dumped ++ ".txt") }, true)
  else ({ st with docs := st.docs ++ [(name, desc)] }, false)

/-- `SkillManager.add_new_skill(info)` from src/kaichi/agents/skill.py:
generate the description; load (or create) `skills.json`; when the name
already exists delete its dataset document and pick the versioned filename;
insert the new document under the original name; update the dictionary;
assert dataset/dictionary synchronisation; write the code and description
files and persist the dictionary.  The `Bool` is `true` iff the call
returns normally. -/
def add_new_skill (st : SkillState) (program_name program_code : String)
    (o : AddOracle) : SkillState × Bool :=
  match o.desc with
  | Except.error _ => (st, false)
  | Except.ok skill_description =>
      let st1 :=
        if st.skills_file_exists then st
        else { st with skills_json := [], skills_file_exists := true }
      match alookup st1.skills_json program_name with
      | some _ =>
          let st2 := { st1 with docs := deleteDoc st1.docs program_name }
          let dumped :=
            program_name ++ "V" ++ toString (versionIndex program_name st2.code_files)
          addFinish st2 program_name program_code skill_description dumped o.create_ok
      | none =>
          addFinish st1 program_name program_code skill_description program_name
            o.create_ok

/-- A sequence of `add_new_skill` calls, keeping only the states
(individual calls may end in an exception; the partially mutated state is
carried forward, as in the Python object). -/
def runAdds (st : SkillState) (ops : List (String × String × AddOracle)) :
    SkillState :=
  ops.foldl (fun s op => (add_new_skill s op.1 op.2.1 op.2.2).1) st

/- ## Critic agent (src/kaichi/agents/critic.py)

`check_task_success` is modelled in auto mode (the mode the orchestrator
configures; `CriticConfig.mode` defaults to "auto").  The LLM round-trip
together with the JSON extraction/parse of its answer is a per-attempt
oracle: `Except.ok (success, critique)` for a parsed verdict,
`Except.error msg` when the LLM reports an error or parsing raises
(`U.extract_json_from_markdown`/`fix_and_parse_json` live in the `utils`
package, which is not part of this repository's sources). -/

/-- A cached critic verdict.  The stored dict also carries a timestamp that
`check_task_success` never reads; it is omitted. -/
structure CriticEntry where
  success : Bool
  critique : String
deriving DecidableEq, Repr

/-- `CriticCache`: the result dict plus the usage counters that drive
least-used eviction (`last_used` is never read for decisions and is
omitted). -/
structure CriticCache where
  entries : List (String × CriticEntry)
  usage_count : List (String × Nat)
  max_size : Nat
deriving DecidableEq, Repr

/-- Association-list lookup for cache entries (Python dict access). -/
def entryLookup (l : List (String × CriticEntry)) (k : String) :
    Option CriticEntry :=
  match l with
  | [] => none
  | p :: rest => if p.1 = k then some p.2 else entryLookup rest k

/-- Python `dict[k] = v` for cache entries. -/
def entsSet (l : List (String × CriticEntry)) (k : String) (e : CriticEntry) :
    List (String × CriticEntry) :=
  if (entryLookup l k).isSome then
    l.map (fun p => if p.1 = k then (k, e) else p)
  else l ++ [(k, e)]

/-- `usage_count[key] += 1` on a cache hit. -/
def bumpUsage (u : List (String × Nat)) (k : String) : List (String × Nat) :=
  u.map (fun p => if p.1 = k then (p.1, p.2 + 1) else p)

/-- `CriticCache.get`: on a hit, bump the usage counter and return the
entry (`last_used` update omitted, see above). -/
def CriticCache.get (c : CriticCache) (k : String) :
    Option (CriticCache × CriticEntry) :=
  match entryLookup c.entries k with
  | none => none
  | some e => some ({ c with usage_count := bumpUsage c.usage_count k }, e)

/-- `CriticCache._remove_least_used`: drop the first key whose usage count
equals the minimum usage count. -/
def CriticCache.removeLeastUsed (c : CriticCache) : CriticCache :=
  match c.usage_count.map Prod.snd with
  | [] => c
  | v :: vs =>
      match c.usage_count.find? (fun p => p.2 = vs.foldl Nat.min v) with
      | none => c
      | some victim =>
          { c with
              entries := c.entries.filter (fun q => decide (q.1 ≠ victim.1))
              usage_count := c.usage_count.filter (fun q => decide (q.1 ≠ victim.1)) }

/-- `CriticCache.add`: evict when full, then store the value and reset its
usage counter. -/
def CriticCache.add (c : CriticCache) (k : String) (e : CriticEntry) :
    CriticCache :=
  let c1 := if c.max_size ≤ c.entries.length then c.removeLeastUsed else c
  { c1 with entries := entsSet c1.entries k e
            usage_count := dictSet c1.usage_count k 0 }

/-- The `state` argument of `check_task_success` as it occurs at runtime:
the execution-state dict, Python `None`, or the integer that the buggy
recursive call passes in the state position. -/
inductive StateArg where
  | noneVal
  | dict (s : ExecState)
  | intVal (n : Int)
deriving DecidableEq, Repr

/-- `retries = max_retries or self.config.max_retries`: Python `or` falls
back on the falsy values `None` and `0`. -/
def pyRetries (cfg : Nat) (mr : Option Int) : Int :=
  match mr with
  | none => cfg
  | some m => if m = 0 then cfg else m

/-- One level of `CriticAgent.check_task_success` in auto mode (the body of
the Python method); `recurse` is the recursive call
`self.check_task_success(task, context, code, retries - 1)` of the except
branch, receiving the new state argument and attempt index. -/
def checkBody (cfg : Nat) (cache : CriticCache) (task context code : String)
    (state : StateArg) (max_retries : Option Int)
    (attempt : Nat → Except String (Bool × String)) (idx : Nat)
    (recurse : StateArg → Nat → Option (CriticCache × Bool × String)) :
    Option (CriticCache × Bool × String) :=
  match cache.get (task ++ "_" ++ code) with
  | some pr => some (pr.1, pr.2.success, pr.2.critique)
  | none =>
      match state with
      | StateArg.dict _ =>
          match attempt idx with
          | Except.ok v =>
              some (cache.add (task ++ "_" ++ code) ⟨v.1, v.2⟩, v.1, v.2)
          | Except.error msg =>
              if 0 < pyRetries cfg max_retries then
                recurse (StateArg.intVal (pyRetries cfg max_retries - 1)) (idx + 1)
              else some (cache, false, msg)
      | StateArg.noneVal =>
          if 0 < pyRetries cfg max_retries then
            recurse (StateArg.intVal (pyRetries cfg max_retries - 1)) (idx + 1)
          else some (cache, false, "Failed to render human message")
      | StateArg.intVal _ =>
          if 0 < pyRetries cfg max_retries then
            recurse (StateArg.intVal (pyRetries cfg max_retries - 1)) (idx + 1)
          else some (cache, false, "Failed to render human message")

/-- `CriticAgent.check_task_success`, fuel-bounded. -/
def check_task_success (cfg : Nat) (cache : CriticCache) (task context code : String)
    (state : StateArg) (max_retries : Option Int)
    (attempt : Nat → Except String (Bool × String)) (idx : Nat) (fuel : Nat) :
    Option (CriticCache × Bool × String) :=
  match fuel with
  | 0 => none
  | fuel' + 1 =>
      checkBody cfg cache task context code state max_retries attempt idx
        (fun st2 idx2 =>
          check_task_success cfg cache task context code st2 none attempt idx2 fuel')

/-- An LLM that reports an error on every attempt. -/
def alwaysFailingLLM : Nat → Except String (Bool × String) :=
  fun _ => Except.error "LLM error: model unavailable"

/-- A fresh critic cache with the default `max_size = 100`. -/
def emptyCriticCache : CriticCache :=
  { entries := [], usage_count := [], max_size := 100 }

/- ## Orchestrator (src/kaichi/kaichi.py)

`Kaichi.step` drives one generate → parse → execute → validate → log →
update-messages → increment-iteration cycle inside a `try/except` catch-all.
The four fallible stages are oracles; file writes of the per-step artifacts
are modelled as succeeding. -/

/-- Default `AgentConfig.max_retries` (the configured retry cap; `Kaichi.step`
itself never reads it). -/
def kaichiDefaultMaxRetries : Nat := 5

/-- The parts of `process_ai_message`'s dict that `step` uses. -/
structure KaichiParsed where
  program_code : String
  program_name : String
deriving DecidableEq, Repr

/-- Per-step oracle: outcome of `_generate_code`, `_parse_code` (a failure
covers both an exception and the error-string return that makes the
subsequent dict indexing raise `TypeError`), `env.step`, and
`_validate_code` (the critic). -/
structure StepOracle where
  gen : Except String String
  parse : Except String KaichiParsed
  env_step : Except String (ExecState × Int)
  validate : Except String (Bool × String)

/-- The orchestrator state `step` touches: `state.iteration`,
`state.current_task`, and `self.messages` (`none` models the attribute not
having been set because `reset` never ran). -/
structure KaichiState where
  iteration : Nat
  current_task : Option String
  messages : Option (List String)
deriving DecidableEq, Repr

/-- The info dict of `step`'s return value (`success`, plus the `error` key
present only on the except path). -/
structure StepInfo where
  success : Bool
  errorText : Option String
deriving DecidableEq, Repr

/-- The `try` body of `Kaichi.step`: validate state, run the four fallible
stages, then update messages, increment the iteration and compute
`done = (iteration >= 3 or success)` — the literal `3` from the source. -/
def stepBody (st : KaichiState) (msgs : List String) (o : StepOracle) :
    Except String (KaichiState × Int × Bool × StepInfo) :=
  if ¬ (msgs.length = 2 ∧ st.current_task.isSome) then
    Except.error "Invalid agent state"
  else
    match o.gen with
    | Except.error e => Except.error e
    | Except.ok _ai =>
        match o.parse with
        | Except.error e => Except.error e
        | Except.ok _parsed =>
            match o.env_step with
            | Except.error e => Except.error e
            | Except.ok er =>
                match o.validate with
                | Except.error e => Except.error e
                | Except.ok v =>
                    Except.ok
                      ({ st with iteration := st.iteration + 1
                                 messages := some ["system", "human"] },
                        er.2,
                        (decide (3 ≤ st.iteration + 1) || v.1),
                        { success := v.1, errorText := none })

/-- `Kaichi.step()`: run the body under the catch-all.  An exception in the
body yields the 4-tuple `(messages, 0, True, {success: False, error: str(e)})`;
only a missing `self.messages` attribute (no prior `reset`) escapes, because
the except path itself reads `self.messages`. -/
def Kaichi.step (st : KaichiState) (o : StepOracle) :
    Except String (KaichiState × List String × Int × Bool × StepInfo) :=
  match st.messages with
  | none => Except.error "AttributeError: messages"
  | some msgs =>
      match stepBody st msgs o with
      | Except.ok r =>
          Except.ok (r.1, ["system", "human"], r.2.1, r.2.2.1, r.2.2.2)
      | Except.error e =>
          Except.ok (st, msgs, 0, true, { success := false, errorText := some e })

/-- The `while True: step(); if done: break` loop of `Kaichi.rollout`,
fuel-bounded; `none` means the loop has not terminated within `fuel`
steps (or `step` raised). -/
def rolloutLoop (st : KaichiState) (os : Nat → StepOracle) (idx fuel : Nat) :
    Option (Int × Bool × StepInfo) :=
  match fuel with
  | 0 => none
  | fuel' + 1 =>
      match Kaichi.step st (os idx) with
      | Except.error _ => none
      | Except.ok r =>
          if r.2.2.2.1 then some (r.2.2.1, r.2.2.2.1, r.2.2.2.2)
          else rolloutLoop r.1 os (idx + 1) fuel'

/-- Every name in the persisted dictionary has both its `.py` and `.txt`
file on disk. -/
def FilesOK (st : SkillState) : Prop :=
  ∀ p ∈ st.skills_json, (p.1 ++ ".py") ∈ st.code_files ∧
    (p.1 ++ ".txt") ∈ st.desc_files

/-- The Skill Manager invariant of the spec: dataset document count equals
the dictionary size, and every skill has both files on disk. -/
def SkillInv (st : SkillState) : Prop :=
  st.docs.length = st.skills_json.length ∧ FilesOK st

/- ## Shared character classes (Python `re` / `str.strip`) -/

/-- Python regex `\s` and the default `str.strip` whitespace set. -/
def isWsChar (c : Char) : Bool :=
  c = ' ' ∨ c = '\t' ∨ c = '\n' ∨ c = '\r' ∨ c = '\x0b' ∨ c = '\x0c'

/-- Drop leading regex whitespace (a greedy `\s*`). -/
def dropWsChars (s : List Char) : List Char :=
  s.dropWhile isWsChar

/-- Python `str.strip()`. -/
def pyStrip (s : List Char) : List Char :=
  ((s.dropWhile isWsChar).reverse.dropWhile isWsChar).reverse

/-- Regex `[a-zA-Z_]`. -/
def isIdentStartChar (c : Char) : Bool :=
  ('a' ≤ c ∧ c ≤ 'z') ∨ ('A' ≤ c ∧ c ≤ 'Z') ∨ c = '_'

/-- Regex `[a-zA-Z0-9_]`. -/
def isIdentChar (c : Char) : Bool :=
  isIdentStartChar c ∨ ('0' ≤ c ∧ c ≤ '9')

/- ## Action agent (src/kaichi/agents/action.py)

`process_ai_message` operates textually — with regexes — on the joined
contents of the message's fenced code blocks.  The joined code is modelled
at the granularity those regexes distinguish: a token list separating
"async def <name>" occurrences, "def <name>" occurrences, other whole-word
occurrences of identifiers, and any other text (string literals, operators,
whitespace).  The function definitions `ast.walk` extracts correspond to
the def tokens in program order. -/

/-- One textual token of the extracted Python code. -/
inductive PyTok where
  | asyncDef (name : String)
  | syncDef (name : String)
  | ident (name : String)
  | other (text : String)
deriving DecidableEq, Repr

/-- `"\n".join(code_pattern.findall(message))`: the fenced blocks joined
with newlines. -/
def joinBlocks (blocks : List (List PyTok)) : List PyTok :=
  List.intercalate [PyTok.other "\n"] blocks

/-- Names of the async function definitions, in program order. -/
def asyncNames (p : List PyTok) : List String :=
  p.filterMap (fun t =>
    match t with
    | PyTok.asyncDef n => some n
    | _ => none)

/-- Names of all function definitions (async and sync). -/
def defNames (p : List PyTok) : List String :=
  p.filterMap (fun t =>
    match t with
    | PyTok.asyncDef n => some n
    | PyTok.syncDef n => some n
    | _ => none)

/-- The main function: the last async function definition. -/
def lastAsyncName (p : List PyTok) : Option String :=
  (asyncNames p).getLast?

/-- Number of async function definitions named `n`. -/
def countAsyncNamed (p : List PyTok) (n : String) : Nat :=
  (asyncNames p).count n

/-- Number of async function definitions. -/
def asyncCount (p : List PyTok) : Nat :=
  (asyncNames p).length

/-- The literal part of the rename-extraction regex
`new_function_name:\s*([a-zA-Z_][a-zA-Z0-9_]*)`. -/
def newNamePattern : List Char := "new_function_name:".data

/-- `re.search` for the rename-extraction regex: at each start position try
the literal, then a greedy `\s*`, then a nonempty identifier; on failure
move one position right. -/
def scanNewName : List Char → Option String
  | [] => none
  | c :: rest =>
      if newNamePattern.isPrefixOf (c :: rest) then
        match dropWsChars ((c :: rest).drop newNamePattern.length) with
        | [] => scanNewName rest
        | a :: more =>
            if isIdentStartChar a then
              some (String.mk ((a :: more).takeWhile isIdentChar))
            else scanNewName rest
      else scanNewName rest

/-- Extract the suggested function name from the rename LLM's answer. -/
def extractNewName (answer : String) : Option String :=
  scanNewName answer.data

/-- First rewrite: `re.sub(rf"async def {old}\b", f"async def {new}", code)`
— every "async def old" occurrence becomes "async def new". -/
def renameStep1 (p : List PyTok) (old new : String) : List PyTok :=
  p.map (fun t =>
    match t with
    | PyTok.asyncDef n => if n = old then PyTok.asyncDef new else t
    | _ => t)

/-- Second rewrite: `re.sub(rf"\b{old}\b", new, code)` — every remaining
whole-word occurrence of `old` (sync def names, call sites, any identifier
use, and async def names, though step 1 already renamed those) becomes
`new`. -/
def renameStep2 (p : List PyTok) (old new : String) : List PyTok :=
  p.map (fun t =>
    match t with
    | PyTok.asyncDef n => if n = old then PyTok.asyncDef new else t
    | PyTok.syncDef n => if n = old then PyTok.syncDef new else t
    | PyTok.ident n => if n = old then PyTok.ident new else t
    | _ => t)

/-- The dict `process_ai_message` returns on success. -/
structure ParsedProgram where
  program_code : List PyTok
  program_name : String
  exec_code : String
deriving DecidableEq, Repr

/-- `ActionAgent.process_ai_message(message)`: join the fenced blocks,
require some code and at least one function, pick the last async function
as the entry, extract the new name from the rename LLM's answer, rewrite
the name textually, and return `{program_code, program_name, exec_code}`.
`none` models every failure path (the method then returns an error string
instead of a dict). -/
def process_ai_message (blocks : List (List PyTok)) (llmAnswer : String) :
    Option ParsedProgram :=
  if (joinBlocks blocks).isEmpty then none
  else if (defNames (joinBlocks blocks)).isEmpty then none
  else
    match lastAsyncName (joinBlocks blocks) with
    | none => none
    | some old =>
        match extractNewName llmAnswer with
        | none => none
        | some newName =>
            some { program_code :=
                     renameStep2 (renameStep1 (joinBlocks blocks) old newName)
                       old newName
                   program_name := newName
                   exec_code := "await " ++ newName ++ "()" }

/-- The name substitution both rewrites perform. -/
def substName (old new n : String) : String :=
  if n = old then new else n

/- ## Curriculum JSON extraction (src/kaichi/agents/curriculum.py)

`extract_json_from_markdown` is
`re.search(r"```json\s*(.*?)\s*```", content, re.DOTALL)`; the Kaichi
`utils` package (not part of this repository's sources) is not involved —
the curriculum uses its own module-level function. -/

/-- The literal fence opener of the pattern. -/
def jsonFencePat : List Char := "```json".data

/-- The lazy group `(.*?)\s*```` after the greedy `\s*`: the shortest
prefix whose remainder, after whitespace, starts with a closing fence;
`none` when no closing fence follows. -/
def lazyGroup : List Char → Option (List Char)
  | [] => none
  | c :: rest =>
      if "```".data.isPrefixOf (dropWsChars (c :: rest)) then some []
      else (lazyGroup rest).map (fun g => c :: g)

/-- `re.search` for the fence pattern: try each start position from the
left; at a position starting with "```json", match greedy whitespace and
the lazy group; if no closing fence follows, keep scanning. -/
def searchJsonFence : List Char → Option (List Char)
  | [] => none
  | c :: rest =>
      if jsonFencePat.isPrefixOf (c :: rest) then
        match lazyGroup (dropWsChars ((c :: rest).drop jsonFencePat.length)) with
        | some g => some g
        | none => searchJsonFence rest
      else searchJsonFence rest

/-- `extract_json_from_markdown(content)`: the stripped group of the first
match, or `""` when the pattern does not occur. -/
def extract_json_from_markdown (content : String) : String :=
  match searchJsonFence content.data with
  | some g => String.mk (pyStrip g)
  | none => ""

/-- One JSON string literal (escape-free), returning the remainder. -/
def parseJsonStringLit : List Char → Option (String × List Char)
  | '"' :: rest =>
      match rest.dropWhile (fun c => c ≠ '"') with
      | '"' :: rest2 => some (String.mk (rest.takeWhile (fun c => c ≠ '"')), rest2)
      | _ => none
  | _ => none

/-- Key/value pairs of a flat JSON object after the opening brace,
fuel-bounded recursion on the remaining text. -/
def parseJsonPairs : List Char → Nat → Option (List (String × String) × List Char)
  | _, 0 => none
  | s, fuel + 1 =>
      match parseJsonStringLit (dropWsChars s) with
      | none => none
      | some (k, rest) =>
          match dropWsChars rest with
          | ':' :: rest2 =>
              match parseJsonStringLit (dropWsChars rest2) with
              | none => none
              | some (v, rest3) =>
                  match dropWsChars rest3 with
                  | ',' :: rest4 =>
                      match parseJsonPairs rest4 fuel with
                      | none => none
                      | some (ps, rest5) => some ((k, v) :: ps, rest5)
                  | '\x7d' :: rest4 => some ([(k, v)], rest4)
                  | _ => none
          | _ => none

/-- Modelled fragment of Python `json.loads`: a flat object with
escape-free string keys and string values (sufficient for the inputs this
development evaluates; richer documents are out of the modelled fragment
and map to `none`, as a parse failure does). -/
def parseFlatJsonObj (s : String) : Option (List (String × String)) :=
  match dropWsChars s.data with
  | '\x7b' :: rest =>
      match dropWsChars rest with
      | '\x7d' :: rest2 =>
          if (dropWsChars rest2).isEmpty then some [] else none
      | _ =>
          match parseJsonPairs rest (rest.length + 1) with
          | none => none
          | some (ps, rest2) =>
              if (dropWsChars rest2).isEmpty then some ps else none
  | _ => none

/-- Python dict lookup on the parsed object. -/
def strLookup (l : List (String × String)) (k : String) : Option String :=
  match l with
  | [] => none
  | p :: rest => if p.1 = k then some p.2 else strLookup rest k

/-- `CurriculumAgent._propose_next_ai_task(retries)`: raise when retries
are exhausted; otherwise take the LLM answer (`answers` indexed by attempt;
`Except.error` covers an LLM error response or any other exception),
extract the JSON from markdown, parse it, require `next_task`, and return
`(next_task, get_task_context(next_task))` with `get_task_context` as the
oracle `ctx`; every failure recurses with `retries - 1`. -/
def proposeNextAiTask (answers : Nat → Except String String)
    (ctx : String → String) (idx : Nat) (retries : Nat) :
    Except String (String × String) :=
  match retries with
  | 0 => Except.error "Max retries reached"
  | r + 1 =>
      match answers idx with
      | Except.error _ => proposeNextAiTask answers ctx (idx + 1) r
      | Except.ok ans =>
          match parseFlatJsonObj (extract_json_from_markdown ans) with
          | none => proposeNextAiTask answers ctx (idx + 1) r
          | some obj =>
              match strLookup obj "next_task" with
              | none => proposeNextAiTask answers ctx (idx + 1) r
              | some t => Except.ok (t, ctx t)

/- ## Theorems -/

theorem add_completed_spec (p : TaskProgress) (task : String) (now : Nat) :
    (p.add_completed_task task now).completed_tasks
        = (if task ∈ p.completed_tasks then p.completed_tasks
           else p.completed_tasks ++ [task]) ∧
      (p.add_completed_task task now).failed_tasks
        = (if task ∈ p.failed_tasks then p.failed_tasks.erase task
           else p.failed_tasks) := by
  unfold TaskProgress.add_completed_task
  by_cases h1 : task ∈ p.completed_tasks <;>
    by_cases h2 : task ∈ p.failed_tasks <;>
    simp [h1, h2]

theorem add_failed_spec (p : TaskProgress) (task : String) (now : Nat) :
    (p.add_failed_task task now).completed_tasks = p.completed_tasks ∧
      (p.add_failed_task task now).failed_tasks
        = (if task ∉ p.failed_tasks ∧ task ∉ p.completed_tasks
           then p.failed_tasks ++ [task] else p.failed_tasks) := by
  unfold TaskProgress.add_failed_task
  split <;> rename_i h <;> simp [h]

theorem progressInv_add_completed (p : TaskProgress) (task : String) (now : Nat)
    (hp : ProgressInv p) : ProgressInv (p.add_completed_task task now) := by
  obtain ⟨hnd, hdisj⟩ := hp
  obtain ⟨hcs, hfs⟩ := add_completed_spec p task now
  constructor
  · rw [hfs]
    split
    · exact hnd.erase task
    · exact hnd
  · intro t htc htf
    rw [hcs] at htc
    rw [hfs] at htf
    by_cases h1 : task ∈ p.completed_tasks <;> simp only [h1, if_true, if_false] at htc <;>
      by_cases h2 : task ∈ p.failed_tasks <;> simp only [h2, if_true, if_false] at htf
    · exact hdisj t htc ((hnd.mem_erase_iff).mp htf).2
    · exact hdisj t htc htf
    · rcases List.mem_append.mp htc with htc | htc
      · exact hdisj t htc ((hnd.mem_erase_iff).mp htf).2
      · have : t = task := List.mem_singleton.mp htc
        subst this
        exact ((hnd.mem_erase_iff).mp htf).1 rfl
    · rcases List.mem_append.mp htc with htc | htc
      · exact hdisj t htc htf
      · have : t = task := List.mem_singleton.mp htc
        subst this
        exact h2 htf

theorem progressInv_add_failed (p : TaskProgress) (task : String) (now : Nat)
    (hp : ProgressInv p) : ProgressInv (p.add_failed_task task now) := by
  obtain ⟨hnd, hdisj⟩ := hp
  obtain ⟨hcs, hfs⟩ := add_failed_spec p task now
  constructor
  · rw [hfs]
    split
    · rename_i h
      simpa [List.nodup_append] using ⟨hnd, h.1⟩
    · exact hnd
  · intro t htc htf
    rw [hcs] at htc
    rw [hfs] at htf
    split at htf
    · rename_i h
      rcases List.mem_append.mp htf with htf | htf
      · exact hdisj t htc htf
      · have : t = task := List.mem_singleton.mp htf
        subst this
        exact h.2 htc
    · exact hdisj t htc htf

theorem progressInv_update (p : TaskProgress) (u : String × Bool × Nat)
    (hp : ProgressInv p) : ProgressInv (update_exploration_progress p u) := by
  unfold update_exploration_progress
  split
  · exact progressInv_add_completed p u.1 u.2.2 hp
  · exact progressInv_add_failed p u.1 u.2.2 hp

theorem progressInv_runUpdates (p : TaskProgress) (us : List (String × Bool × Nat))
    (hp : ProgressInv p) : ProgressInv (runUpdates p us) := by
  induction us generalizing p with
  | nil => exact hp
  | cons u us ih =>
      exact ih (update_exploration_progress p u) (progressInv_update p u hp)

theorem progressInv_init : ProgressInv initTaskProgress := by
  constructor
  · simp [initTaskProgress]
  · intro t ht
    simp [initTaskProgress] at ht

theorem completed_mono_update (p : TaskProgress) (u : String × Bool × Nat)
    (t : String) (ht : t ∈ p.completed_tasks) :
    t ∈ (update_exploration_progress p u).completed_tasks := by
  unfold update_exploration_progress
  split
  · rw [(add_completed_spec p u.1 u.2.2).1]
    split
    · exact ht
    · exact List.mem_append.mpr (Or.inl ht)
  · rw [(add_failed_spec p u.1 u.2.2).1]
    exact ht

theorem completed_mono_runUpdates (p : TaskProgress) (us : List (String × Bool × Nat))
    (t : String) (ht : t ∈ p.completed_tasks) :
    t ∈ (runUpdates p us).completed_tasks := by
  induction us generalizing p with
  | nil => exact ht
  | cons u us ih =>
      exact ih (update_exploration_progress p u) (completed_mono_update p u t ht)

/-- Claim C4: for every task `t` and every sequence of
`update_exploration_progress` calls starting from a fresh progress record,
after each call `t` is in at most one of `completed_tasks` and
`failed_tasks`, and once `t` is completed no later sequence of calls (in
particular none reporting failure for `t`) ever places it in
`failed_tasks`; it stays completed. -/
theorem update_exploration_progress_exclusive
    (t : String) (us vs : List (String × Bool × Nat))
    (hc : t ∈ (runUpdates initTaskProgress us).completed_tasks) :
    (¬ (t ∈ (runUpdates initTaskProgress us).completed_tasks ∧
        t ∈ (runUpdates initTaskProgress us).failed_tasks)) ∧
    t ∈ (runUpdates (runUpdates initTaskProgress us) vs).completed_tasks ∧
    t ∉ (runUpdates (runUpdates initTaskProgress us) vs).failed_tasks := by
  have hinv := progressInv_runUpdates initTaskProgress us progressInv_init
  have hinv2 := progressInv_runUpdates (runUpdates initTaskProgress us) vs hinv
  have hc2 := completed_mono_runUpdates (runUpdates initTaskProgress us) vs t hc
  exact ⟨fun h => hinv.2 t h.1 h.2, hc2, hinv2.2 t hc2⟩

/-- Witness for C4 at a concrete input: completing "t1" and then reporting
a failure for "t1" leaves it completed only. -/
theorem update_exploration_progress_exclusive_witness :
    "t1" ∈ (runUpdates initTaskProgress [("t1", true, 0)]).completed_tasks ∧
    ((¬ ("t1" ∈ (runUpdates initTaskProgress [("t1", true, 0)]).completed_tasks ∧
        "t1" ∈ (runUpdates initTaskProgress [("t1", true, 0)]).failed_tasks)) ∧
    "t1" ∈ (runUpdates (runUpdates initTaskProgress [("t1", true, 0)])
        [("t1", false, 1)]).completed_tasks ∧
    "t1" ∉ (runUpdates (runUpdates initTaskProgress [("t1", true, 0)])
        [("t1", false, 1)]).failed_tasks) :=
  ⟨by decide,
   update_exploration_progress_exclusive "t1" [("t1", true, 0)] [("t1", false, 1)]
     (by decide)⟩

theorem mem_fsWrite_self (files : List String) (name : String) :
    name ∈ fsWrite files name := by
  unfold fsWrite
  split
  · assumption
  · exact List.mem_append.mpr (Or.inr (List.mem_singleton.mpr rfl))

theorem mem_fsWrite_mono (files : List String) (name x : String)
    (h : x ∈ files) : x ∈ fsWrite files name := by
  unfold fsWrite
  split
  · exact h
  · exact List.mem_append.mpr (Or.inl h)

theorem alookup_mem (l : List (String × Skill)) (k : String) (v : Skill)
    (h : alookup l k = some v) : (k, v) ∈ l := by
  induction l with
  | nil => simp [alookup] at h
  | cons p rest ih =>
      unfold alookup at h
      split at h
      · rename_i heq
        obtain rfl : p.2 = v := Option.some_injective _ h
        rw [← heq]
        exact List.mem_cons_self p rest
      · exact List.mem_cons_of_mem p (ih h)

theorem skillsSet_mem (l : List (String × Skill)) (k : String) (v : Skill)
    (p : String × Skill) (h : p ∈ skillsSet l k v) : p = (k, v) ∨ p ∈ l := by
  unfold skillsSet at h
  split at h
  · obtain ⟨q, hq, hqe⟩ := List.mem_map.mp h
    by_cases hk : q.1 = k
    · simp [hk] at hqe
      exact Or.inl hqe.symm
    · simp [hk] at hqe
      exact Or.inr (hqe ▸ hq)
  · rcases List.mem_append.mp h with h | h
    · exact Or.inr h
    · exact Or.inl (List.mem_singleton.mp h)

theorem filesOK_addFinish (st : SkillState) (name code desc dumped : String)
    (ok : Bool) (hf : FilesOK st)
    (hname : (∃ v, (name, v) ∈ st.skills_json) ∨ dumped = name) :
    FilesOK (addFinish st name code desc dumped ok).1 := by
  unfold addFinish
  split
  · exact hf
  · split
    · intro p hp
      rcases skillsSet_mem _ _ _ p hp with hp | hp
      · subst hp
        rcases hname with ⟨v, hv⟩ | rfl
        · obtain ⟨h1, h2⟩ := hf (name, v) hv
          exact ⟨mem_fsWrite_mono _ _ _ h1, mem_fsWrite_mono _ _ _ h2⟩
        · exact ⟨mem_fsWrite_self _ _, mem_fsWrite_self _ _⟩
      · obtain ⟨h1, h2⟩ := hf p hp
        exact ⟨mem_fsWrite_mono _ _ _ h1, mem_fsWrite_mono _ _ _ h2⟩
    · exact hf

theorem filesOK_add (st : SkillState) (n c : String) (o : AddOracle)
    (hf : FilesOK st) : FilesOK (add_new_skill st n c o).1 := by
  unfold add_new_skill
  match o.desc with
  | Except.error e => exact hf
  | Except.ok d =>
      simp only
      have hf1 : FilesOK (if st.skills_file_exists then st
          else { st with skills_json := [], skills_file_exists := true }) := by
        split
        · exact hf
        · intro p hp
          simp at hp
      split
      · rename_i sk hsk
        refine filesOK_addFinish _ _ _ _ _ _ (fun p hp => hf1 p hp) ?_
        exact Or.inl ⟨sk, alookup_mem _ _ _ hsk⟩
      · exact filesOK_addFinish _ _ _ _ _ _ hf1 (Or.inr rfl)

theorem filesOK_runAdds (st : SkillState) (ops : List (String × String × AddOracle))
    (hf : FilesOK st) : FilesOK (runAdds st ops) := by
  induction ops generalizing st with
  | nil => exact hf
  | cons op ops ih =>
      exact ih _ (filesOK_add st op.1 op.2.1 op.2.2 hf)

theorem filesOK_init : FilesOK initSkillState := by
  intro p hp
  simp [initSkillState] at hp

theorem addFinish_true_sync (st : SkillState) (name code desc dumped : String)
    (ok : Bool) (h : (addFinish st name code desc dumped ok).2 = true) :
    (addFinish st name code desc dumped ok).1.docs.length
      = (addFinish st name code desc dumped ok).1.skills_json.length := by
  unfold addFinish at h ⊢
  split at h
  · simp at h
  · rename_i hok
    split at h
    · rename_i hlen
      rw [if_neg hok, if_pos hlen]
      simpa using hlen
    · simp at h

/-- Claim C3: after every `add_new_skill` that returns normally (the only
mutating Skill Manager operation), with the manager having run any prior
sequence of adds from a fresh checkpoint, the number of documents in the
external vector dataset equals the number of entries in the persisted
skill dictionary, and every skill name in the dictionary has both its
`.py` and its `.txt` file on disk. -/
theorem add_new_skill_invariant (ops : List (String × String × AddOracle))
    (name code : String) (o : AddOracle)
    (h : (add_new_skill (runAdds initSkillState ops) name code o).2 = true) :
    SkillInv (add_new_skill (runAdds initSkillState ops) name code o).1 := by
  have hfiles : FilesOK (add_new_skill (runAdds initSkillState ops) name code o).1 :=
    filesOK_add _ name code o (filesOK_runAdds _ ops filesOK_init)
  refine ⟨?_, hfiles⟩
  unfold add_new_skill at h ⊢
  match hd : o.desc with
  | Except.error e => simp [hd] at h
  | Except.ok d =>
      simp only [hd] at h ⊢
      split at h
      · exact addFinish_true_sync _ _ _ _ _ _ h
      · exact addFinish_true_sync _ _ _ _ _ _ h

/-- Witness for C3: one concrete add on a fresh manager returns normally
and establishes the invariant. -/
theorem add_new_skill_invariant_witness :
    ((add_new_skill (runAdds initSkillState []) "hello" "c"
        { desc := Except.ok "d", create_ok := true }).2 = true) ∧
    SkillInv (add_new_skill (runAdds initSkillState []) "hello" "c"
        { desc := Except.ok "d", create_ok := true }).1 :=
  ⟨by decide,
   add_new_skill_invariant [] "hello" "c"
     { desc := Except.ok "d", create_ok := true } (by decide)⟩

/-- Claim C7: adding skill "hello" with code `c1` and then again with code
`c2` (both calls returning normally): the dictionary maps "hello" to `c2`;
`hello.py` and `helloV2.py` are exactly the files in the code directory
(`V2` being the smallest version suffix `k ≥ 2` free on disk); and the
dataset holds exactly one document named "hello". -/
theorem add_new_skill_versioning (c1 c2 d1 d2 : String) :
    ((add_new_skill initSkillState "hello" c1
        { desc := Except.ok d1, create_ok := true }).2 = true) ∧
    ((add_new_skill
        (add_new_skill initSkillState "hello" c1
          { desc := Except.ok d1, create_ok := true }).1 "hello" c2
        { desc := Except.ok d2, create_ok := true }).2 = true) ∧
    (alookup (add_new_skill
        (add_new_skill initSkillState "hello" c1
          { desc := Except.ok d1, create_ok := true }).1 "hello" c2
        { desc := Except.ok d2, create_ok := true }).1.skills_json "hello"
      = some { code := c2, description := d2 }) ∧
    ((add_new_skill
        (add_new_skill initSkillState "hello" c1
          { desc := Except.ok d1, create_ok := true }).1 "hello" c2
        { desc := Except.ok d2, create_ok := true }).1.code_files
      = ["hello.py", "helloV2.py"]) ∧
    (((add_new_skill
        (add_new_skill initSkillState "hello" c1
          { desc := Except.ok d1, create_ok := true }).1 "hello" c2
        { desc := Except.ok d2, create_ok := true }).1.docs.filter
          (fun d => decide (d.1 = "hello"))).length = 1) := by
  refine ⟨rfl, rfl, rfl, ?_, rfl⟩
  simp [add_new_skill, addFinish, initSkillState, skillsSet, alookup, fsWrite,
    deleteDoc, versionIndex, versionScan]
  decide

theorem check_succ_eq (cfg : Nat) (cache : CriticCache) (task context code : String)
    (state : StateArg) (max_retries : Option Int)
    (attempt : Nat → Except String (Bool × String)) (idx fuel : Nat) :
    check_task_success cfg cache task context code state max_retries attempt idx (fuel + 1)
      = checkBody cfg cache task context code state max_retries attempt idx
          (fun st2 idx2 =>
            check_task_success cfg cache task context code st2 none attempt idx2 fuel) := rfl

theorem entryLookup_set_self (l : List (String × CriticEntry)) (k : String)
    (e : CriticEntry) : entryLookup (entsSet l k e) k = some e := by
  induction l with
  | nil => simp [entsSet, entryLookup]
  | cons p rest ih =>
      by_cases hp : p.1 = k
      · simp [entsSet, entryLookup, hp]
      · by_cases hs : (entryLookup rest k).isSome
        · simp [entsSet, entryLookup, hp, hs] at ih ⊢
          exact ih
        · simp [entsSet, entryLookup, hp, hs] at ih ⊢
          exact ih

theorem criticCache_add_lookup (c : CriticCache) (k : String) (e : CriticEntry) :
    entryLookup (CriticCache.add c k e).entries k = some e := by
  unfold CriticCache.add
  exact entryLookup_set_self _ k e

theorem pyRetries_none_pos (cfg : Nat) (hcfg : 1 ≤ cfg) :
    0 < pyRetries cfg none := by
  simp [pyRetries]
  exact_mod_cast hcfg

theorem check_returns_cached (cfg : Nat) (hcfg : 1 ≤ cfg) (cache : CriticCache)
    (task context code : String) (st : StateArg)
    (attempt : Nat → Except String (Bool × String)) (idx fuel : Nat)
    (cache' : CriticCache) (succ : Bool) (crit : String)
    (h : check_task_success cfg cache task context code st none attempt idx fuel
        = some (cache', succ, crit)) :
    entryLookup cache'.entries (task ++ "_" ++ code) = some ⟨succ, crit⟩ := by
  induction fuel generalizing st idx with
  | zero => simp [check_task_success] at h
  | succ fuel ih =>
      rw [check_succ_eq] at h
      unfold checkBody at h
      split at h
      · rename_i pr hget
        simp only [Option.some.injEq, Prod.mk.injEq] at h
        obtain ⟨h1, h2, h3⟩ := h
        subst h1
        subst h2
        subst h3
        unfold CriticCache.get at hget
        split at hget
        · simp at hget
        · rename_i e0 hlook
          simp only [Option.some.injEq] at hget
          rw [← hget]
          simpa using hlook
      · rename_i hget
        split at h
        · split at h
          · rename_i v hatt
            simp only [Option.some.injEq, Prod.mk.injEq] at h
            obtain ⟨h1, h2, h3⟩ := h
            subst h1
            subst h2
            subst h3
            exact criticCache_add_lookup cache _ _
          · rename_i msg hatt
            rw [if_pos (pyRetries_none_pos cfg hcfg)] at h
            exact ih _ _ h
        · rw [if_pos (pyRetries_none_pos cfg hcfg)] at h
          exact ih _ _ h
        · rw [if_pos (pyRetries_none_pos cfg hcfg)] at h
          exact ih _ _ h
theorem check_task_success_cache_coherent (cfg : Nat) (cache : CriticCache)
    (task code context1 context2 : String) (s1 s2 : StateArg)
    (attempt1 attempt2 : Nat → Except String (Bool × String))
    (idx1 idx2 f1 f2 : Nat) (mr2 : Option Int)
    (cache' : CriticCache) (succ : Bool) (crit : String)
    (hcfg : 1 ≤ cfg)
    (h1 : check_task_success cfg cache task context1 code s1 none attempt1 idx1 f1
        = some (cache', succ, crit))
    (hf2 : 0 < f2) :
    ∃ cache'' : CriticCache,
      check_task_success cfg cache' task context2 code s2 mr2 attempt2 idx2 f2
        = some (cache'', succ, crit) := by
  have hcached := check_returns_cached cfg hcfg cache task context1 code s1
    attempt1 idx1 f1 cache' succ crit h1
  obtain ⟨f2', rfl⟩ : ∃ f2', f2 = f2' + 1 := ⟨f2 - 1, (Nat.succ_pred_eq_of_pos hf2).symm⟩
  refine ⟨{ cache' with usage_count := bumpUsage cache'.usage_count (task ++ "_" ++ code) }, ?_⟩
  rw [check_succ_eq]
  unfold checkBody
  unfold CriticCache.get
  rw [hcached]

theorem check_task_success_retry_divergence (fuel idx : Nat) (st : StateArg) :
    check_task_success 5 emptyCriticCache "t" "ctx" "code" st none
      alwaysFailingLLM idx fuel = none := by
  induction fuel generalizing st idx with
  | zero => rfl
  | succ fuel ih =>
      rw [check_succ_eq]
      cases st with
      | dict s =>
          have hstep : checkBody 5 emptyCriticCache "t" "ctx" "code" (StateArg.dict s) none
              alwaysFailingLLM idx
              (fun st2 idx2 => check_task_success 5 emptyCriticCache "t" "ctx" "code" st2
                none alwaysFailingLLM idx2 fuel)
            = check_task_success 5 emptyCriticCache "t" "ctx" "code"
                (StateArg.intVal (pyRetries 5 none - 1)) none alwaysFailingLLM (idx + 1) fuel := rfl
          rw [hstep]
          exact ih (idx + 1) (StateArg.intVal (pyRetries 5 none - 1))
      | noneVal =>
          have hstep : checkBody 5 emptyCriticCache "t" "ctx" "code" StateArg.noneVal none
              alwaysFailingLLM idx
              (fun st2 idx2 => check_task_success 5 emptyCriticCache "t" "ctx" "code" st2
                none alwaysFailingLLM idx2 fuel)
            = check_task_success 5 emptyCriticCache "t" "ctx" "code"
                (StateArg.intVal (pyRetries 5 none - 1)) none alwaysFailingLLM (idx + 1) fuel := rfl
          rw [hstep]
          exact ih (idx + 1) (StateArg.intVal (pyRetries 5 none - 1))
      | intVal n =>
          have hstep : checkBody 5 emptyCriticCache "t" "ctx" "code" (StateArg.intVal n) none
              alwaysFailingLLM idx
              (fun st2 idx2 => check_task_success 5 emptyCriticCache "t" "ctx" "code" st2
                none alwaysFailingLLM idx2 fuel)
            = check_task_success 5 emptyCriticCache "t" "ctx" "code"
                (StateArg.intVal (pyRetries 5 none - 1)) none alwaysFailingLLM (idx + 1) fuel := rfl
          rw [hstep]
          exact ih (idx + 1) (StateArg.intVal (pyRetries 5 none - 1))

theorem check_task_success_cache_coherent_witness :
    ∃ cache'' : CriticCache,
      check_task_success 1
        (CriticCache.add emptyCriticCache ("t" ++ "_" ++ "c")
          { success := true, critique := "good" })
        "t" "other context" "c" (StateArg.dict { output := "", error := "x", return_code := 1 })
        (some 4) (fun _ => Except.error "LLM error: down") 0 1
        = some (cache'', true, "good") :=
  check_task_success_cache_coherent 1 emptyCriticCache "t" "c" "ctx" "other context"
    (StateArg.dict { output := "", error := "", return_code := 0 })
    (StateArg.dict { output := "", error := "x", return_code := 1 })
    (fun _ => Except.ok (true, "good")) (fun _ => Except.error "LLM error: down")
    0 0 1 1 (some 4)
    (CriticCache.add emptyCriticCache ("t" ++ "_" ++ "c")
      { success := true, critique := "good" })
    true "good" (by decide) rfl (by decide)

theorem rolloutLoop_succ_eq (st : KaichiState) (os : Nat → StepOracle)
    (idx fuel : Nat) :
    rolloutLoop st os idx (fuel + 1)
      = (match Kaichi.step st (os idx) with
         | Except.error _ => none
         | Except.ok r =>
             if r.2.2.2.1 then some (r.2.2.1, r.2.2.2.1, r.2.2.2.2)
             else rolloutLoop r.1 os (idx + 1) fuel) := rfl

theorem stepBody_ok_spec (st : KaichiState) (msgs : List String) (o : StepOracle)
    (r : KaichiState × Int × Bool × StepInfo)
    (h : stepBody st msgs o = Except.ok r) :
    r.1.iteration = st.iteration + 1 ∧
    r.1.messages = some ["system", "human"] ∧
    r.1.current_task = st.current_task ∧
    r.2.2.1 = (decide (3 ≤ st.iteration + 1) || r.2.2.2.success) ∧
    r.2.2.2.errorText = none := by
  unfold stepBody at h
  split at h
  · simp at h
  · split at h
    · simp at h
    · split at h
      · simp at h
      · split at h
        · simp at h
        · split at h
          · simp at h
          · injection h with h
            subst h
            exact ⟨rfl, rfl, rfl, rfl, rfl⟩

theorem kaichiStep_of_messages (st : KaichiState) (msgs : List String)
    (o : StepOracle) (hm : st.messages = some msgs) :
    Kaichi.step st o
      = (match stepBody st msgs o with
         | Except.ok r =>
             Except.ok (r.1, ["system", "human"], r.2.1, r.2.2.1, r.2.2.2)
         | Except.error e =>
             Except.ok (st, msgs, 0, true,
               { success := false, errorText := some e })) := by
  unfold Kaichi.step
  rw [hm]

/-- Claim C9, counterexample: with the default configuration
(`max_retries = 5`), a normally completed `step` at iteration 2 with a
critic verdict of failure returns `done = True` — the source hardcodes
`done = (iteration >= 3 or success)` — although neither `success` nor
`iteration >= max_retries` holds, refuting "done exactly when the critic
reported success or the iteration count has reached max_retries". -/
theorem kaichi_step_done_cex :
    (Kaichi.step
        { iteration := 2, current_task := some "task", messages := some ["s", "h"] }
        { gen := Except.ok "msg"
          parse := Except.ok { program_code := "c", program_name := "f" }
          env_step := Except.ok ({ output := "", error := "", return_code := 0 }, 1)
          validate := Except.ok (false, "not yet") }
      = Except.ok
          ({ iteration := 3, current_task := some "task",
             messages := some ["system", "human"] },
            ["system", "human"], 1, true,
            { success := false, errorText := none })) ∧
    3 < kaichiDefaultMaxRetries := ⟨rfl, by decide⟩

/-- Claim C9, amended: a normally completed `step()` (one whose body runs
to the end: state valid and no stage raised) increments the iteration
counter by exactly one and returns `done == True` exactly when the critic
reported success or the incremented iteration count has reached the
hardcoded bound `3` (the source uses the literal `3`, not the configured
`max_retries`). -/
theorem kaichi_step_done_amended (st : KaichiState) (msgs : List String)
    (o : StepOracle) (r : KaichiState × Int × Bool × StepInfo)
    (hm : st.messages = some msgs)
    (hbody : stepBody st msgs o = Except.ok r) :
    r.1.iteration = st.iteration + 1 ∧
    r.2.2.1 = (decide (3 ≤ r.1.iteration) || r.2.2.2.success) ∧
    Kaichi.step st o
      = Except.ok (r.1, ["system", "human"], r.2.1, r.2.2.1, r.2.2.2) := by
  obtain ⟨h1, _h2, _h3, h4, _h5⟩ := stepBody_ok_spec st msgs o r hbody
  refine ⟨h1, ?_, ?_⟩
  · rw [h1]
    exact h4
  · rw [kaichiStep_of_messages st msgs o hm, hbody]

/-- Witness for the amended C9 at concrete inputs. -/
theorem kaichi_step_done_amended_witness :
    ({ iteration := 1, current_task := some "t",
       messages := some ["system", "human"] } : KaichiState).iteration = 0 + 1 ∧
    (true : Bool) = (decide (3 ≤ (1 : Nat)) || true) ∧
    Kaichi.step
        { iteration := 0, current_task := some "t", messages := some ["s", "h"] }
        { gen := Except.ok "msg"
          parse := Except.ok { program_code := "c", program_name := "f" }
          env_step := Except.ok ({ output := "hi\n", error := "", return_code := 0 }, 1)
          validate := Except.ok (true, "") }
      = Except.ok
          ({ iteration := 1, current_task := some "t",
             messages := some ["system", "human"] },
            ["system", "human"], 1, true, { success := true, errorText := none }) :=
  kaichi_step_done_amended
    { iteration := 0, current_task := some "t", messages := some ["s", "h"] }
    ["s", "h"]
    { gen := Except.ok "msg"
      parse := Except.ok { program_code := "c", program_name := "f" }
      env_step := Except.ok ({ output := "hi\n", error := "", return_code := 0 }, 1)
      validate := Except.ok (true, "") }
    ({ iteration := 1, current_task := some "t",
       messages := some ["system", "human"] },
      1, true, { success := true, errorText := none })
    rfl rfl

theorem rolloutLoop_terminates (os : Nat → StepOracle) (fuel : Nat) :
    ∀ (st : KaichiState) (idx : Nat) (msgs : List String),
      st.messages = some msgs → 1 ≤ fuel → 3 ≤ st.iteration + fuel →
      (rolloutLoop st os idx fuel).isSome := by
  induction fuel with
  | zero =>
      intro st idx msgs _hm h1 _h3
      omega
  | succ fuel ih =>
      intro st idx msgs hm _h1 h3
      rw [rolloutLoop_succ_eq, kaichiStep_of_messages st msgs (os idx) hm]
      cases hb : stepBody st msgs (os idx) with
      | error e => simp
      | ok r =>
          obtain ⟨hi, hmsg, _htask, hd, _⟩ := stepBody_ok_spec st msgs (os idx) r hb
          cases hdone : r.2.2.1 with
          | true => simp [hdone]
          | false =>
              simp only [hdone, if_false, Bool.false_eq_true]
              have hfalse : (decide (3 ≤ st.iteration + 1) || r.2.2.2.success) = false := by
                rw [← hd, hdone]
              have hdec : decide (3 ≤ st.iteration + 1) = false := by
                cases horr : decide (3 ≤ st.iteration + 1)
                · rfl
                · rw [horr] at hfalse
                  simp at hfalse
              have hlt : ¬ (3 ≤ st.iteration + 1) := of_decide_eq_false hdec
              apply ih r.1 (idx + 1) ["system", "human"] hmsg
              · omega
              · omega

/-- Claim C10: when the agent has been reset (`self.messages` exists), any
exception raised inside the step body comes back as the 4-tuple
`(messages, 0, True, {success: False, error: <exception text>})` rather
than propagating, and consequently the rollout loop always terminates
(within `max (1, 3 - iteration)` steps, in particular within 3 steps from a
fresh reset). -/
theorem kaichi_step_catchall (st : KaichiState) (msgs : List String)
    (o : StepOracle) (e : String) (os : Nat → StepOracle) (idx fuel : Nat)
    (hm : st.messages = some msgs) :
    (stepBody st msgs o = Except.error e →
      Kaichi.step st o
        = Except.ok (st, msgs, 0, true, { success := false, errorText := some e })) ∧
    (1 ≤ fuel → 3 ≤ st.iteration + fuel → (rolloutLoop st os idx fuel).isSome) := by
  constructor
  · intro hb
    rw [kaichiStep_of_messages st msgs o hm, hb]
  · intro h1 h3
    exact rolloutLoop_terminates os fuel st idx msgs hm h1 h3

/-- Witness for C10 at concrete inputs: a step whose code generation raises
returns the error tuple, and a rollout from a fresh reset terminates. -/
theorem kaichi_step_catchall_witness :
    (Kaichi.step
        { iteration := 0, current_task := some "t", messages := some ["s", "h"] }
        { gen := Except.error "boom"
          parse := Except.ok { program_code := "c", program_name := "f" }
          env_step := Except.ok ({ output := "", error := "", return_code := 0 }, 1)
          validate := Except.ok (false, "") }
      = Except.ok
          ({ iteration := 0, current_task := some "t", messages := some ["s", "h"] },
            ["s", "h"], 0, true, { success := false, errorText := some "boom" })) ∧
    (rolloutLoop
        { iteration := 0, current_task := some "t", messages := some ["s", "h"] }
        (fun _ =>
          { gen := Except.error "boom"
            parse := Except.ok { program_code := "c", program_name := "f" }
            env_step := Except.ok ({ output := "", error := "", return_code := 0 }, 1)
            validate := Except.ok (false, "") })
        0 3).isSome :=
  ⟨(kaichi_step_catchall
      { iteration := 0, current_task := some "t", messages := some ["s", "h"] }
      ["s", "h"]
      { gen := Except.error "boom"
        parse := Except.ok { program_code := "c", program_name := "f" }
        env_step := Except.ok ({ output := "", error := "", return_code := 0 }, 1)
        validate := Except.ok (false, "") }
      "boom"
      (fun _ =>
        { gen := Except.error "boom"
          parse := Except.ok { program_code := "c", program_name := "f" }
          env_step := Except.ok ({ output := "", error := "", return_code := 0 }, 1)
          validate := Except.ok (false, "") })
      0 3 rfl).1 rfl,
   (kaichi_step_catchall
      { iteration := 0, current_task := some "t", messages := some ["s", "h"] }
      ["s", "h"]
      { gen := Except.error "boom"
        parse := Except.ok { program_code := "c", program_name := "f" }
        env_step := Except.ok ({ output := "", error := "", return_code := 0 }, 1)
        validate := Except.ok (false, "") }
      "boom"
      (fun _ =>
        { gen := Except.error "boom"
          parse := Except.ok { program_code := "c", program_name := "f" }
          env_step := Except.ok ({ output := "", error := "", return_code := 0 }, 1)
          validate := Except.ok (false, "") })
      0 3 rfl).2 (by decide) (by decide)⟩

/-- Claim C2, counterexample: `ProjectEnv.step` does raise when the
environment has not been reset (`raise RuntimeError("Environment has not
been reset yet.")` in src/kaichi/env/bridge.py), so "never raises" is false
as stated. -/
theorem projectEnv_step_unreset_cex :
    ProjectEnv.step { timeout := 5, has_reset := false, execution_log := [] }
      "x = 1" (RunResult.completed "" "" 0)
      = Except.error "Environment has not been reset yet." := rfl

/-- Claim C2, amended: for every `step(code)` on an environment that has
been reset, no exception escapes (the call returns a state/reward pair, with
timeouts encoded in the returned execution state) and the reward is `+1.0`
exactly when `return_code == 0` and `-1.0` otherwise. -/
theorem projectEnv_step_reward_amended (env : ProjectEnv) (code : String)
    (run : RunResult) (h : env.has_reset = true) :
    ∃ r : ProjectEnv × ExecState × Int,
      ProjectEnv.step env code run = Except.ok r ∧
      r.2.2 = (if r.2.1.return_code = 0 then (1 : Int) else -1) := by
  unfold ProjectEnv.step
  rw [h]
  cases run with
  | completed out err rc =>
      exact ⟨_, rfl, by by_cases hrc : rc = 0 <;> simp [hrc]⟩
  | timedOut =>
      exact ⟨_, rfl, by norm_num⟩

/-- Witness for the amended C2 at concrete inputs. -/
theorem projectEnv_step_reward_amended_witness :
    (∃ r : ProjectEnv × ExecState × Int,
      ProjectEnv.step { timeout := 5, has_reset := true, execution_log := [] }
        "print(1)" (RunResult.completed "1\n" "" 0) = Except.ok r ∧
      r.2.2 = (if r.2.1.return_code = 0 then (1 : Int) else -1)) :=
  projectEnv_step_reward_amended
    { timeout := 5, has_reset := true, execution_log := [] }
    "print(1)" (RunResult.completed "1\n" "" 0) rfl

theorem asyncNames_renameStep1 (p : List PyTok) (old new : String) :
    asyncNames (renameStep1 p old new) = (asyncNames p).map (substName old new) := by
  induction p with
  | nil => rfl
  | cons t rest ih =>
      cases t with
      | asyncDef n =>
          by_cases hn : n = old <;>
            simp [renameStep1, asyncNames, substName, hn] at ih ⊢ <;>
            simpa [renameStep1, asyncNames] using ih
      | syncDef n => simpa [renameStep1, asyncNames] using ih
      | ident n => simpa [renameStep1, asyncNames] using ih
      | other s => simpa [renameStep1, asyncNames] using ih

theorem asyncNames_renameStep2 (p : List PyTok) (old new : String) :
    asyncNames (renameStep2 p old new) = (asyncNames p).map (substName old new) := by
  induction p with
  | nil => rfl
  | cons t rest ih =>
      cases t with
      | asyncDef n =>
          by_cases hn : n = old <;>
            simp [renameStep2, asyncNames, substName, hn] at ih ⊢ <;>
            simpa [renameStep2, asyncNames] using ih
      | syncDef n =>
          by_cases hn : n = old <;>
            simp [renameStep2, asyncNames, substName, hn] at ih ⊢ <;>
            simpa [renameStep2, asyncNames] using ih
      | ident n =>
          by_cases hn : n = old <;>
            simp [renameStep2, asyncNames, substName, hn] at ih ⊢ <;>
            simpa [renameStep2, asyncNames] using ih
      | other s => simpa [renameStep2, asyncNames] using ih

theorem substName_idem (old new n : String) :
    substName old new (substName old new n) = substName old new n := by
  unfold substName
  by_cases hn : n = old <;> by_cases hnew : new = old <;> simp [hn, hnew]

theorem substName_self (old new : String) : substName old new old = new := by
  simp [substName]

/-- Claim C1, counterexample: a message whose fenced block defines two
async functions, `fetch_value` and then `main`, with the rename LLM
answering `new_function_name: fetch_value`, produces a dict whose
`program_code` contains two async function definitions named
`program_name` — not exactly one. -/
theorem process_ai_message_unique_async_cex :
    (process_ai_message
        [[PyTok.asyncDef "fetch_value", PyTok.other "\n", PyTok.asyncDef "main"]]
        "new_function_name: fetch_value").map
      (fun r => (countAsyncNamed r.program_code r.program_name, r.program_name,
        r.exec_code))
      = some (2, "fetch_value", "await fetch_value()") := by decide

/-- Claim C1, amended: whenever `process_ai_message` returns a dict,
`exec_code == "await <program_name>()"` and `program_code` contains at
least one async function definition named `program_name`; it contains
exactly one when the extracted code has exactly one async function
definition.  (The textual rewrite can duplicate the name when several
async definitions exist, as the counterexample shows.) -/
theorem process_ai_message_amended (blocks : List (List PyTok)) (answer : String)
    (r : ParsedProgram) (h : process_ai_message blocks answer = some r) :
    r.exec_code = "await " ++ r.program_name ++ "()" ∧
    1 ≤ countAsyncNamed r.program_code r.program_name ∧
    (asyncCount (joinBlocks blocks) = 1 →
      countAsyncNamed r.program_code r.program_name = 1) := by
  unfold process_ai_message at h
  split at h
  · simp at h
  · split at h
    · simp at h
    · split at h
      · simp at h
      · rename_i old hlast
        split at h
        · simp at h
        · rename_i newName hnew
          injection h with h
          subst h
          refine ⟨rfl, ?_, ?_⟩
          · show 1 ≤ countAsyncNamed
              (renameStep2 (renameStep1 (joinBlocks blocks) old newName) old newName)
              newName
            unfold countAsyncNamed
            rw [asyncNames_renameStep2, asyncNames_renameStep1, List.map_map]
            have hcomp : substName old newName ∘ substName old newName
                = substName old newName := by
              funext n
              exact substName_idem old newName n
            rw [hcomp]
            have hmem : old ∈ asyncNames (joinBlocks blocks) :=
              List.mem_of_mem_getLast? hlast
            have : newName ∈ (asyncNames (joinBlocks blocks)).map (substName old newName) := by
              have hm2 := List.mem_map_of_mem (substName old newName) hmem
              rwa [substName_self] at hm2
            exact List.count_pos_iff.mpr this
          · intro hone
            show countAsyncNamed
              (renameStep2 (renameStep1 (joinBlocks blocks) old newName) old newName)
              newName = 1
            unfold countAsyncNamed
            rw [asyncNames_renameStep2, asyncNames_renameStep1, List.map_map]
            have hcomp : substName old newName ∘ substName old newName
                = substName old newName := by
              funext n
              exact substName_idem old newName n
            rw [hcomp]
            unfold asyncCount at hone
            obtain ⟨a, ha⟩ := List.length_eq_one.mp hone
            have hlast2 : a = old := by
              unfold lastAsyncName at hlast
              rw [ha] at hlast
              simp at hlast
              exact hlast
            rw [ha, hlast2]
            simp [substName_self]

/-- Witness for the amended C1 at concrete inputs. -/
theorem process_ai_message_amended_witness :
    ({ program_code := [PyTok.asyncDef "fetch_value"], program_name := "fetch_value",
       exec_code := "await fetch_value()" } : ParsedProgram).exec_code
        = "await " ++ "fetch_value" ++ "()" ∧
    1 ≤ countAsyncNamed
        ({ program_code := [PyTok.asyncDef "fetch_value"], program_name := "fetch_value",
           exec_code := "await fetch_value()" } : ParsedProgram).program_code
        "fetch_value" ∧
    (asyncCount (joinBlocks [[PyTok.asyncDef "main"]]) = 1 →
      countAsyncNamed
        ({ program_code := [PyTok.asyncDef "fetch_value"], program_name := "fetch_value",
           exec_code := "await fetch_value()" } : ParsedProgram).program_code
        "fetch_value" = 1) :=
  process_ai_message_amended [[PyTok.asyncDef "main"]] "new_function_name: fetch_value"
    { program_code := [PyTok.asyncDef "fetch_value"], program_name := "fetch_value",
      exec_code := "await fetch_value()" }
    (by decide)

/-- Claim C8, counterexample: the extraction utility does not accept raw
JSON — on the bare document it returns the empty string, not the JSON
substring (the pattern only matches ```json fences). -/
theorem extract_json_raw_cex :
    extract_json_from_markdown "\x7b\"next_task\":\"do X\"\x7d" = "" ∧
    "" ≠ "\x7b\"next_task\":\"do X\"\x7d" := ⟨rfl, by decide⟩

/-- Claim C8, amended: `extract_json_from_markdown` accepts ```json-fenced
JSON and returns the bare JSON substring (scenario S6: the curriculum's
task proposal then returns a tuple whose first element is "do X"), but for
raw JSON and for unfenced JSON with surrounding prose it returns the empty
string. -/
theorem extract_json_amended (ctx : String → String) (rr : Nat)
    (answers : Nat → Except String String)
    (hans : answers 0 = Except.ok "```json\n\x7b\"next_task\":\"do X\"\x7d\n```") :
    extract_json_from_markdown "```json\n\x7b\"next_task\":\"do X\"\x7d\n```"
        = "\x7b\"next_task\":\"do X\"\x7d" ∧
    extract_json_from_markdown "\x7b\"next_task\":\"do X\"\x7d" = "" ∧
    extract_json_from_markdown "Answer: \x7b\"next_task\":\"do X\"\x7d thanks" = "" ∧
    proposeNextAiTask answers ctx 0 (rr + 1) = Except.ok ("do X", ctx "do X") := by
  refine ⟨rfl, rfl, rfl, ?_⟩
  have h1 : proposeNextAiTask answers ctx 0 (rr + 1)
      = (match answers 0 with
         | Except.error _ => proposeNextAiTask answers ctx (0 + 1) rr
         | Except.ok ans =>
             match parseFlatJsonObj (extract_json_from_markdown ans) with
             | none => proposeNextAiTask answers ctx (0 + 1) rr
             | some obj =>
                 match strLookup obj "next_task" with
                 | none => proposeNextAiTask answers ctx (0 + 1) rr
                 | some t => Except.ok (t, ctx t)) := rfl
  rw [h1, hans]
  rfl

/-- Witness for the amended C8 at concrete inputs. -/
theorem extract_json_amended_witness :
    extract_json_from_markdown "```json\n\x7b\"next_task\":\"do X\"\x7d\n```"
        = "\x7b\"next_task\":\"do X\"\x7d" ∧
    extract_json_from_markdown "\x7b\"next_task\":\"do X\"\x7d" = "" ∧
    extract_json_from_markdown "Answer: \x7b\"next_task\":\"do X\"\x7d thanks" = "" ∧
    proposeNextAiTask
        (fun _ => Except.ok "```json\n\x7b\"next_task\":\"do X\"\x7d\n```")
        (fun t => "Task: " ++ t) 0 (0 + 1)
      = Except.ok ("do X", (fun t => "Task: " ++ t) "do X") :=
  extract_json_amended (fun t => "Task: " ++ t) 0
    (fun _ => Except.ok "```json\n\x7b\"next_task\":\"do X\"\x7d\n```") rfl
